import Mathlib

/-!
Verification development for the federated-learning IR core and the
deterministic-discretization aggregation factory.

The building-block IR and its analysis passes are modelled from the
specification (their implementation modules `building_blocks.py` and
`building_block_analysis.py` are not part of the provided sources; only
their tests are), while the discretization layer is embedded directly
from `tensorflow_federated/python/aggregators/deterministic_discretization.py`.
-/

namespace Federated

/-- Tensor element dtypes relevant to the IR type system and the
validation of the discretization factory. -/
inductive DType : Type
  | float16
  | float32
  | float64
  | int32
  | int64
  | boolean
  | string
deriving DecidableEq, Repr

/-- Whether a dtype is a (real) floating-point type. -/
def DType.isFloat : DType → Bool
  | .float16 => true
  | .float32 => true
  | .float64 => true
  | _ => false

/-- Placement literals: a federated computation location tag,
either CLIENTS or SERVER. -/
inductive PlacementLit : Type
  | clients
  | server
deriving DecidableEq, Repr

/-- Modelled from the spec: the `TypeSignature` tagged union of §3
(`building_blocks.py` / `computation_types` are not in the provided
sources).  Variants: tensor, structure, function, federated, sequence,
placement. -/
inductive TypeSignature : Type
  | tensor (dtype : DType) (shape : List Nat)
  | struct (elems : List (Option String × TypeSignature))
  | func (param : Option TypeSignature) (result : TypeSignature)
  | federated (member : TypeSignature) (placement : PlacementLit) (allEqual : Bool)
  | sequence (elem : TypeSignature)
  | placement
deriving Repr

mutual

/-- Structural (not nominal) equality test on type signatures. -/
def TypeSignature.beq : TypeSignature → TypeSignature → Bool
  | .tensor d1 s1, .tensor d2 s2 => decide (d1 = d2) && decide (s1 = s2)
  | .struct e1, .struct e2 => TypeSignature.beqElems e1 e2
  | .func none r1, .func none r2 => TypeSignature.beq r1 r2
  | .func (some p1) r1, .func (some p2) r2 =>
      TypeSignature.beq p1 p2 && TypeSignature.beq r1 r2
  | .federated m1 p1 a1, .federated m2 p2 a2 =>
      TypeSignature.beq m1 m2 && decide (p1 = p2) && decide (a1 = a2)
  | .sequence e1, .sequence e2 => TypeSignature.beq e1 e2
  | .placement, .placement => true
  | _, _ => false

/-- Equality test on struct element lists. -/
def TypeSignature.beqElems :
    List (Option String × TypeSignature) → List (Option String × TypeSignature) → Bool
  | [], [] => true
  | (n1, t1) :: r1, (n2, t2) :: r2 =>
      decide (n1 = n2) && TypeSignature.beq t1 t2 && TypeSignature.beqElems r1 r2
  | _, _ => false

end

mutual

theorem TypeSignature.beq_refl : ∀ t : TypeSignature, TypeSignature.beq t t = true
  | .tensor d s => by simp [TypeSignature.beq]
  | .struct e => by simp [TypeSignature.beq, TypeSignature.beqElems_refl e]
  | .func none r => by simp [TypeSignature.beq, TypeSignature.beq_refl r]
  | .func (some p) r => by
      simp [TypeSignature.beq, TypeSignature.beq_refl p, TypeSignature.beq_refl r]
  | .federated m p a => by simp [TypeSignature.beq, TypeSignature.beq_refl m]
  | .sequence e => by simp [TypeSignature.beq, TypeSignature.beq_refl e]
  | .placement => by simp [TypeSignature.beq]

theorem TypeSignature.beqElems_refl :
    ∀ l : List (Option String × TypeSignature), TypeSignature.beqElems l l = true
  | [] => by simp [TypeSignature.beqElems]
  | (n, t) :: r => by
      simp [TypeSignature.beqElems, TypeSignature.beq_refl t,
        TypeSignature.beqElems_refl r]

end

mutual

theorem TypeSignature.eq_of_beq :
    ∀ {a b : TypeSignature}, TypeSignature.beq a b = true → a = b
  | .tensor d1 s1, .tensor d2 s2, h => by
      simp [TypeSignature.beq] at h; simp [h.1, h.2]
  | .struct e1, .struct e2, h => by
      simp only [TypeSignature.beq] at h
      simp [TypeSignature.eqElems_of_beq h]
  | .func none r1, .func none r2, h => by
      simp only [TypeSignature.beq] at h
      simp [TypeSignature.eq_of_beq h]
  | .func (some p1) r1, .func (some p2) r2, h => by
      simp only [TypeSignature.beq, Bool.and_eq_true] at h
      simp [TypeSignature.eq_of_beq h.1, TypeSignature.eq_of_beq h.2]
  | .federated m1 p1 a1, .federated m2 p2 a2, h => by
      simp only [TypeSignature.beq, Bool.and_eq_true, decide_eq_true_eq] at h
      simp [TypeSignature.eq_of_beq h.1.1, h.1.2, h.2]
  | .sequence e1, .sequence e2, h => by
      simp only [TypeSignature.beq] at h
      simp [TypeSignature.eq_of_beq h]
  | .placement, .placement, _ => rfl
  | .tensor _ _, .struct _, h => by simp [TypeSignature.beq] at h
  | .func none _, .func (some _) _, h => by simp [TypeSignature.beq] at h
  | .func (some _) _, .func none _, h => by simp [TypeSignature.beq] at h

theorem TypeSignature.eqElems_of_beq :
    ∀ {l1 l2 : List (Option String × TypeSignature)},
      TypeSignature.beqElems l1 l2 = true → l1 = l2
  | [], [], _ => rfl
  | (n1, t1) :: r1, (n2, t2) :: r2, h => by
      simp only [TypeSignature.beqElems, Bool.and_eq_true, decide_eq_true_eq] at h
      simp [h.1.1, TypeSignature.eq_of_beq h.1.2, TypeSignature.eqElems_of_beq h.2]

end

instance : DecidableEq TypeSignature := fun a b =>
  decidable_of_iff (TypeSignature.beq a b = true)
    ⟨TypeSignature.eq_of_beq, fun h => h ▸ TypeSignature.beq_refl a⟩

/-! ## The embedded low-level (TensorFlow) graph payload

Modelled from the spec (§9, design notes): the compiled-computation
payload is an opaque graph exposing only an op list (each op with kind,
name and device-placement string) and a library of sub-function
definitions, matching the `GraphDef` structure the tests build. -/

/-- A single low-level operation: its op kind (e.g. `Const`, `AddV2`,
`Identity`, `VariableV2`, `VarHandleOp`, `Placeholder`,
`PartitionedCall`), its name and its device-placement annotation
(empty string = unplaced/default device). -/
structure NodeDef : Type where
  op : String
  name : String
  device : String
deriving DecidableEq, Repr

/-- A sub-function definition embedded in the function library of the graph. -/
structure FunctionDef : Type where
  nodeDef : List NodeDef
deriving DecidableEq, Repr

/-- The embedded low-level operation graph: top-level ops plus a library
of sub-function definitions. -/
structure GraphDef : Type where
  node : List NodeDef
  library : List FunctionDef
deriving DecidableEq, Repr

/-! ## Computation building blocks

Modelled from the spec: the `ComputationBuildingBlock` variants of §3
(`building_blocks.py` is not in the provided sources; only its tests
are).  Each node carries exactly the data of its variant; the type
signature of a composite node is computed, not stored. -/

/-- Modelled from the spec: the accessor of a `Selection` node — §3
says a selection holds an index or a name that must resolve to an
existing element of the source struct. -/
inductive SelKey : Type
  | byIndex (index : Nat)
  | byName (name : String)
deriving DecidableEq, Repr

/-- Modelled from the spec: the payload of a `Literal` node — an
embedded scalar or structured literal value (§3). -/
inductive LitValue : Type
  | intVal (value : Int)
  | floatVal (value : ℚ)
  | boolVal (value : Bool)
  | structVal (elems : List LitValue)

/-- Modelled from the spec: IR building-block node variants of §3. -/
inductive BuildingBlock : Type
  | ref (name : String) (ty : TypeSignature)
  | sel (source : BuildingBlock) (key : SelKey)
  | struct (elems : List (Option String × BuildingBlock))
  | call (fn : BuildingBlock) (arg : Option BuildingBlock)
  | lam (paramName : String) (paramType : TypeSignature) (body : BuildingBlock)
  | block (locals : List (String × BuildingBlock)) (result : BuildingBlock)
  | compiled (payload : GraphDef) (ty : TypeSignature)
  | placementLit (lit : PlacementLit)
  | data (uri : String) (ty : TypeSignature)
  | literal (value : LitValue) (ty : TypeSignature)

/-- Resolution of a selection name among struct elements: the type of
the first element carrying that name, when one exists. -/
def findNamed (elems : List (Option String × TypeSignature)) (name : String) :
    Option TypeSignature :=
  (elems.find? (fun e => e.1 = some name)).map Prod.snd

/-- Whether a selection accessor resolves in a source type: the source
must have struct type and the index must be in range (resp. the name
must be carried by some element). -/
def selResolves (sourceType : TypeSignature) (key : SelKey) : Bool :=
  match sourceType with
  | .struct elems =>
      match key with
      | .byIndex index => decide (index < elems.length)
      | .byName name => (findNamed elems name).isSome
  | _ => false

/-- The element type a selection accessor resolves to, with a junk
fallback on non-resolving accessors (ruled out by `BuildingBlock.wf`). -/
def selType (sourceType : TypeSignature) (key : SelKey) : TypeSignature :=
  match sourceType with
  | .struct elems =>
      match key with
      | .byIndex index => ((elems.get? index).map Prod.snd).getD (.struct [])
      | .byName name => (findNamed elems name).getD (.struct [])
  | _ => .struct []

mutual

/-- The type signature carried by a node, as computed at construction
time.  On ill-formed nodes (ruled out by `BuildingBlock.wf`) the struct
and function cases fall back to a junk value. -/
def BuildingBlock.typeOf : BuildingBlock → TypeSignature
  | .ref _ ty => ty
  | .sel source key => selType (BuildingBlock.typeOf source) key
  | .struct elems => .struct (BuildingBlock.typeOfElems elems)
  | .call fn _ =>
      match BuildingBlock.typeOf fn with
      | .func _ result => result
      | _ => .struct []
  | .lam _ paramType body => .func (some paramType) (BuildingBlock.typeOf body)
  | .block _ result => BuildingBlock.typeOf result
  | .compiled _ ty => ty
  | .placementLit _ => .placement
  | .data _ ty => ty
  | .literal _ ty => ty

/-- Type signatures of the elements of a struct node. -/
def BuildingBlock.typeOfElems :
    List (Option String × BuildingBlock) → List (Option String × TypeSignature)
  | [] => []
  | (n, b) :: rest => (n, BuildingBlock.typeOf b) :: BuildingBlock.typeOfElems rest

end

/-- Names of the named elements of a struct. -/
def namedElems (elems : List (Option String × BuildingBlock)) : List String :=
  elems.filterMap Prod.fst

mutual

/-- The construction-time validity checks of the IR constructors
(§3/§4.1): the function of a `Call` must have function type with matching
argument type, the source of a `Selection` must have struct type with the
index or name resolving to an existing element, the named elements of a
`Struct` must be uniquely named. -/
def BuildingBlock.wf : BuildingBlock → Bool
  | .ref _ _ => true
  | .sel source key =>
      BuildingBlock.wf source && selResolves (BuildingBlock.typeOf source) key
  | .struct elems =>
      BuildingBlock.wfElems elems && decide ((namedElems elems).Nodup)
  | .call fn arg =>
      BuildingBlock.wf fn && BuildingBlock.wfOpt arg &&
        (match BuildingBlock.typeOf fn with
         | .func param _ => decide (param = arg.map BuildingBlock.typeOf)
         | _ => false)
  | .lam _ _ body => BuildingBlock.wf body
  | .block locals result => BuildingBlock.wfLocals locals && BuildingBlock.wf result
  | .compiled _ _ => true
  | .placementLit _ => true
  | .data _ _ => true
  | .literal _ _ => true

/-- Validity of an optional call argument. -/
def BuildingBlock.wfOpt : Option BuildingBlock → Bool
  | none => true
  | some a => BuildingBlock.wf a

/-- Validity of all elements of a struct node. -/
def BuildingBlock.wfElems : List (Option String × BuildingBlock) → Bool
  | [] => true
  | (_, b) :: rest => BuildingBlock.wf b && BuildingBlock.wfElems rest

/-- Validity of all locals of a block node. -/
def BuildingBlock.wfLocals : List (String × BuildingBlock) → Bool
  | [] => true
  | (_, b) :: rest => BuildingBlock.wf b && BuildingBlock.wfLocals rest

end

/-! ## Wire format

Modelled from the spec (§6): the `Computation` proto message carries a
serialized type signature plus a oneof payload matching the IR variant.
Each constructor below is one arm of the oneof, paired with the
message-level `type` field. -/

/-- Modelled from the spec: the wire-format `Computation` proto. -/
inductive Proto : Type
  | reference (ty : TypeSignature) (name : String)
  | selection (ty : TypeSignature) (source : Proto) (key : SelKey)
  | structP (ty : TypeSignature) (elems : List (Option String × Proto))
  | callP (ty : TypeSignature) (fn : Proto) (arg : Option Proto)
  | lamP (ty : TypeSignature) (paramName : String) (body : Proto)
  | blockP (ty : TypeSignature) (locals : List (String × Proto)) (result : Proto)
  | tensorflow (ty : TypeSignature) (payload : GraphDef)
  | placementP (ty : TypeSignature) (uri : String)
  | dataP (ty : TypeSignature) (uri : String)
  | literalP (ty : TypeSignature) (value : LitValue)

/-- Errors raised by proto-to-IR conversion (§7): malformed structure,
or an unknown node/placement kind. -/
inductive ProtoError : Type
  | malformed (msg : String)
  | unexpectedKind (msg : String)
deriving DecidableEq, Repr

/-- Wire uri of a placement literal. -/
def PlacementLit.uri : PlacementLit → String
  | .clients => "clients"
  | .server => "server"

mutual

/-- Modelled from the spec: `to_proto` serializes an IR node back to
wire format, emitting the computed type signature of the node and the
payload of its variant. -/
def toProto : BuildingBlock → Proto
  | .ref name ty => .reference ty name
  | .sel source key =>
      .selection (BuildingBlock.typeOf (.sel source key)) (toProto source) key
  | .struct elems => .structP (.struct (BuildingBlock.typeOfElems elems)) (toProtoElems elems)
  | .call fn arg =>
      .callP (BuildingBlock.typeOf (.call fn arg)) (toProto fn) (toProtoOpt arg)
  | .lam paramName paramType body =>
      .lamP (.func (some paramType) (BuildingBlock.typeOf body)) paramName (toProto body)
  | .block locals result =>
      .blockP (BuildingBlock.typeOf result) (toProtoLocals locals) (toProto result)
  | .compiled payload ty => .tensorflow ty payload
  | .placementLit lit => .placementP .placement lit.uri
  | .data uri ty => .dataP ty uri
  | .literal value ty => .literalP ty value

/-- Serialization of an optional call argument. -/
def toProtoOpt : Option BuildingBlock → Option Proto
  | none => none
  | some a => some (toProto a)

/-- Serialization of struct element lists. -/
def toProtoElems : List (Option String × BuildingBlock) → List (Option String × Proto)
  | [] => []
  | (n, b) :: rest => (n, toProto b) :: toProtoElems rest

/-- Serialization of block local lists. -/
def toProtoLocals : List (String × BuildingBlock) → List (String × Proto)
  | [] => []
  | (n, b) :: rest => (n, toProto b) :: toProtoLocals rest

end

mutual

/-- Modelled from the spec: `from_proto` deserializes a wire-format
proto into the corresponding typed IR variant, failing with a
malformed-structure error when the declared type signature is
inconsistent with the structural contents, and with an unexpected-kind
error on an unknown placement uri. -/
def fromProto : Proto → Except ProtoError BuildingBlock
  | .reference ty name => .ok (.ref name ty)
  | .selection ty source key =>
      match fromProto source with
      | .error e => .error e
      | .ok s =>
          if selResolves (BuildingBlock.typeOf s) key then
            if ty = selType (BuildingBlock.typeOf s) key then .ok (.sel s key)
            else .error (.malformed "selection type mismatch")
          else .error (.malformed "selection does not resolve in source type")
  | .structP ty elems =>
      match fromProtoElems elems with
      | .error e => .error e
      | .ok es =>
          if ty = .struct (BuildingBlock.typeOfElems es) then
            if (namedElems es).Nodup then .ok (.struct es)
            else .error (.malformed "duplicate names in struct")
          else .error (.malformed "struct type mismatch")
  | .callP ty fn arg =>
      match fromProto fn with
      | .error e => .error e
      | .ok f =>
          match fromProtoOpt arg with
          | .error e => .error e
          | .ok a =>
              if BuildingBlock.typeOf f = .func (a.map BuildingBlock.typeOf) ty then
                .ok (.call f a)
              else .error (.malformed "call type mismatch")
  | .lamP ty paramName body =>
      match ty with
      | .func (some paramType) resultType =>
          match fromProto body with
          | .error e => .error e
          | .ok b =>
              if BuildingBlock.typeOf b = resultType then .ok (.lam paramName paramType b)
              else .error (.malformed "lambda result type mismatch")
      | _ => .error (.malformed "lambda type is not a function type")
  | .blockP ty locals result =>
      match fromProtoLocals locals with
      | .error e => .error e
      | .ok ls =>
          match fromProto result with
          | .error e => .error e
          | .ok r =>
              if ty = BuildingBlock.typeOf r then .ok (.block ls r)
              else .error (.malformed "block type mismatch")
  | .tensorflow ty payload => .ok (.compiled payload ty)
  | .placementP ty uri =>
      if ty = .placement then
        if uri = PlacementLit.uri .clients then .ok (.placementLit .clients)
        else if uri = PlacementLit.uri .server then .ok (.placementLit .server)
        else .error (.unexpectedKind "unknown placement uri")
      else .error (.malformed "placement type mismatch")
  | .dataP ty uri => .ok (.data uri ty)
  | .literalP ty value => .ok (.literal value ty)

/-- Deserialization of an optional call argument. -/
def fromProtoOpt : Option Proto → Except ProtoError (Option BuildingBlock)
  | none => .ok none
  | some p =>
      match fromProto p with
      | .error e => .error e
      | .ok b => .ok (some b)

/-- Deserialization of struct element lists. -/
def fromProtoElems :
    List (Option String × Proto) → Except ProtoError (List (Option String × BuildingBlock))
  | [] => .ok []
  | (n, p) :: rest =>
      match fromProto p with
      | .error e => .error e
      | .ok b =>
          match fromProtoElems rest with
          | .error e => .error e
          | .ok bs => .ok ((n, b) :: bs)

/-- Deserialization of block local lists. -/
def fromProtoLocals :
    List (String × Proto) → Except ProtoError (List (String × BuildingBlock))
  | [] => .ok []
  | (n, p) :: rest =>
      match fromProto p with
      | .error e => .error e
      | .ok b =>
          match fromProtoLocals rest with
          | .error e => .error e
          | .ok bs => .ok ((n, b) :: bs)

end

mutual

theorem fromProto_toProto :
    ∀ x : BuildingBlock, BuildingBlock.wf x = true → fromProto (toProto x) = .ok x
  | .ref _ _, _ => rfl
  | .sel source key, h => by
      simp only [BuildingBlock.wf, Bool.and_eq_true] at h
      obtain ⟨hs, hres⟩ := h
      simp only [toProto, fromProto, fromProto_toProto source hs, BuildingBlock.typeOf,
        hres]
      simp
  | .struct elems, h => by
      simp only [BuildingBlock.wf, Bool.and_eq_true, decide_eq_true_eq] at h
      obtain ⟨he, hn⟩ := h
      simp only [toProto, fromProto, fromProtoElems_toProtoElems elems he]
      simp [hn]
  | .call fn arg, h => by
      simp only [BuildingBlock.wf, Bool.and_eq_true] at h
      obtain ⟨⟨hf, ha⟩, hty⟩ := h
      have hargrt : fromProtoOpt (toProtoOpt arg) = .ok arg := by
        cases arg with
        | none => rfl
        | some a =>
            simp only [BuildingBlock.wfOpt] at ha
            simp only [toProtoOpt, fromProtoOpt, fromProto_toProto a ha]
      obtain ⟨p, r, hEq, hp⟩ :
          ∃ p r, BuildingBlock.typeOf fn = .func p r ∧
            p = arg.map BuildingBlock.typeOf := by
        revert hty
        cases BuildingBlock.typeOf fn with
        | func p r => exact fun hty => ⟨p, r, rfl, of_decide_eq_true hty⟩
        | tensor d s => exact fun hty => absurd hty (by simp)
        | struct selems => exact fun hty => absurd hty (by simp)
        | federated m p a => exact fun hty => absurd hty (by simp)
        | sequence e => exact fun hty => absurd hty (by simp)
        | placement => exact fun hty => absurd hty (by simp)
      simp only [toProto, fromProto, fromProto_toProto fn hf, hargrt,
        BuildingBlock.typeOf, hEq, hp]
      simp
  | .lam paramName paramType body, h => by
      simp only [BuildingBlock.wf] at h
      simp only [toProto, fromProto, fromProto_toProto body h]
      simp
  | .block locals result, h => by
      simp only [BuildingBlock.wf, Bool.and_eq_true] at h
      obtain ⟨hl, hr⟩ := h
      simp only [toProto, fromProto, fromProtoLocals_toProtoLocals locals hl,
        fromProto_toProto result hr]
      simp
  | .compiled _ _, _ => rfl
  | .placementLit .clients, _ => by
      simp [toProto, fromProto, PlacementLit.uri]
  | .placementLit .server, _ => by
      simp [toProto, fromProto, PlacementLit.uri]
  | .data _ _, _ => rfl
  | .literal _ _, _ => rfl

theorem fromProtoElems_toProtoElems :
    ∀ l : List (Option String × BuildingBlock), BuildingBlock.wfElems l = true →
      fromProtoElems (toProtoElems l) = .ok l
  | [], _ => rfl
  | (n, b) :: rest, h => by
      simp only [BuildingBlock.wfElems, Bool.and_eq_true] at h
      simp only [toProtoElems, fromProtoElems, fromProto_toProto b h.1,
        fromProtoElems_toProtoElems rest h.2]

theorem fromProtoLocals_toProtoLocals :
    ∀ l : List (String × BuildingBlock), BuildingBlock.wfLocals l = true →
      fromProtoLocals (toProtoLocals l) = .ok l
  | [], _ => rfl
  | (n, b) :: rest, h => by
      simp only [BuildingBlock.wfLocals, Bool.and_eq_true] at h
      simp only [toProtoLocals, fromProtoLocals, fromProto_toProto b h.1,
        fromProtoLocals_toProtoLocals rest h.2]

end

/-- A sample valid node, used to witness the round-trip law on a
concrete input: `(λ x : int32. x)(⟨a=5, b=⟨1/2, true⟩⟩.a)` — a call of
a lambda whose argument selects the element named `a` out of a struct
that also carries a structured literal. -/
def sampleNode : BuildingBlock :=
  .call (.lam "x" (.tensor .int32 []) (.ref "x" (.tensor .int32 [])))
    (some (.sel
      (.struct
        [(some "a", .literal (.intVal 5) (.tensor .int32 [])),
         (some "b", .literal (.structVal [.floatVal (1 / 2), .boolVal true])
            (.struct [(none, .tensor .float32 []), (none, .tensor .boolean [])]))])
      (.byName "a")))

/-! ## Structural analysis passes

Modelled from the spec (§4.2): `building_block_analysis.py` is not in
the provided sources (only its test file is), so the three passes are
modelled from the wording of the specification and the behaviour pinned
down by the tests. -/

/-- Errors raised by the analysis passes (§7): an unsupported-kind
error (a `ValueError` naming the tensorflow domain) and a null-input
error (a `TypeError`). -/
inductive AnalysisError : Type
  | valueError (msg : String)
  | typeError (msg : String)
deriving DecidableEq, Repr

/-- The message of the unsupported-kind error: it names the
"tensorflow" domain, stating the passes are only defined on
compiled/low-level computation nodes. -/
def unsupportedKindMsg : String :=
  "Expected a tensorflow compiled computation building block."

/-- The message of the null-input error. -/
def nullInputMsg : String := "Expected a building block, found none."

/-- Modelled from the spec: the shared precondition of the three
analysis passes — the input must be exactly one `CompiledComputation`
node; `None` raises a `TypeError`, any other node kind raises a
`ValueError` naming "tensorflow". -/
def requireCompiled : Option BuildingBlock → Except AnalysisError GraphDef
  | none => .error (.typeError nullInputMsg)
  | some (.compiled payload _) => .ok payload
  | some _ => .error (.valueError unsupportedKindMsg)

/-- Total op count of a function library: each sub-function
definition has its ops counted once at its definition site. -/
def libraryOpCount (library : List FunctionDef) : Nat :=
  (library.map (fun f => f.nodeDef.length)).sum

/-- Modelled from the spec: `count_tensorflow_ops_in`
(`count_low_level_ops_in`) — total count of primitive operations in
the embedded graph, top-level ops plus the ops of every sub-function
definition in the function library. -/
def count_tensorflow_ops_in (node : Option BuildingBlock) : Except AnalysisError Nat :=
  match requireCompiled node with
  | .error e => .error e
  | .ok g => .ok (g.node.length + libraryOpCount g.library)

/-- Op kinds that declare a stateful variable (one count per variable
creation site; reads and writes such as `ReadVariableOp` or `AssignVariableOp`
are not declaration sites). -/
def isVariableOp (op : String) : Bool :=
  op = "Variable" || op = "VariableV2" || op = "VarHandleOp"

/-- Number of variable-declaration ops in an op list, judged by op
kind, never by op name. -/
def variableCount (nodes : List NodeDef) : Nat :=
  (nodes.filter (fun n => isVariableOp n.op)).length

/-- Modelled from the spec: `count_tensorflow_variables_in`
(`count_low_level_variables_in`) — number of distinct
stateful-variable declaration sites in the embedded graph (top-level
ops plus sub-function definitions), inspecting node kind, never
naming conventions. -/
def count_tensorflow_variables_in (node : Option BuildingBlock) :
    Except AnalysisError Nat :=
  match requireCompiled node with
  | .error e => .error e
  | .ok g =>
      .ok (variableCount g.node +
        (g.library.map (fun f => variableCount f.nodeDef)).sum)

/-- Add one op on device `d` to a device tally, keeping one entry per
distinct device string. -/
def addToTally (tally : List (String × Nat)) (d : String) : List (String × Nat) :=
  match tally with
  | [] => [(d, 1)]
  | (k, c) :: rest =>
      if k = d then (k, c + 1) :: rest else (k, c) :: addToTally rest d

/-- Device tally of a list of ops: every op is attributed to exactly
the key of its device-placement string. -/
def deviceTally (nodes : List NodeDef) : List (String × Nat) :=
  nodes.foldl (fun t n => addToTally t n.device) []

/-- All ops of the embedded graph in order: top-level ops followed by
the ops of every sub-function definition. -/
def allOps (g : GraphDef) : List NodeDef :=
  g.node ++ g.library.flatMap (fun f => f.nodeDef)

/-- Modelled from the spec: `get_device_placement_in` — groups every
operation of the embedded graph by its explicit device-placement
annotation string (empty string = unplaced/default device) and
returns the mapping device → count of ops placed there. -/
def get_device_placement_in (node : Option BuildingBlock) :
    Except AnalysisError (List (String × Nat)) :=
  match requireCompiled node with
  | .error e => .error e
  | .ok g => .ok (deviceTally (allOps g))

/-- Whether a node is a `CompiledComputation` leaf. -/
def BuildingBlock.isCompiledNode : BuildingBlock → Bool
  | .compiled _ _ => true
  | _ => false

/-- Sum of the op counts of a device tally. -/
def sumVals (t : List (String × Nat)) : Nat := (t.map Prod.snd).sum

theorem addToTally_sum (t : List (String × Nat)) (d : String) :
    sumVals (addToTally t d) = sumVals t + 1 := by
  induction t with
  | nil => rfl
  | cons kv rest ih =>
      obtain ⟨k, c⟩ := kv
      by_cases h : k = d
      · simp [addToTally, h, sumVals]; omega
      · simp [addToTally, h, sumVals] at ih ⊢; omega

theorem foldl_tally_sum (l : List NodeDef) :
    ∀ t : List (String × Nat),
      sumVals (l.foldl (fun t n => addToTally t n.device) t) = sumVals t + l.length := by
  induction l with
  | nil => intro t; simp
  | cons op rest ih =>
      intro t
      simp only [List.foldl_cons, ih, addToTally_sum, List.length_cons]
      omega

theorem addToTally_keys (t : List (String × Nat)) (d : String) :
    (addToTally t d).map Prod.fst =
      if d ∈ t.map Prod.fst then t.map Prod.fst else t.map Prod.fst ++ [d] := by
  induction t with
  | nil => simp [addToTally]
  | cons kv rest ih =>
      obtain ⟨k, c⟩ := kv
      by_cases h : k = d
      · subst h; simp [addToTally]
      · have h2 : ¬ d = k := fun he => h he.symm
        by_cases hm : d ∈ rest.map Prod.fst
        · simp [addToTally, h, ih, hm, h2]
        · simp [addToTally, h, ih, hm, h2]

theorem foldl_tally_keys_nodup (l : List NodeDef) :
    ∀ t : List (String × Nat), (t.map Prod.fst).Nodup →
      ((l.foldl (fun t n => addToTally t n.device) t).map Prod.fst).Nodup := by
  induction l with
  | nil => intro t h; simpa using h
  | cons op rest ih =>
      intro t h
      refine ih _ ?_
      rw [addToTally_keys]
      split
      · exact h
      · next hni => simp [List.nodup_append, h, hni]

theorem length_allOps (g : GraphDef) :
    (allOps g).length = g.node.length + libraryOpCount g.library := by
  simp only [allOps, libraryOpCount, List.length_append, List.length_flatMap]
  rfl

theorem foldl_tally_uniform (l : List NodeDef) (d : String) :
    ∀ c : Nat, (∀ op ∈ l, op.device = d) →
      l.foldl (fun t n => addToTally t n.device) [(d, c)] = [(d, c + l.length)] := by
  induction l with
  | nil => intro c _; simp
  | cons op rest ih =>
      intro c hall
      have hop : op.device = d := hall op (List.mem_cons_self op rest)
      have hrest : ∀ o ∈ rest, o.device = d := fun o ho => hall o (List.mem_cons_of_mem op ho)
      simp only [List.foldl_cons, hop, addToTally, if_true, List.length_cons]
      rw [ih (c + 1) hrest]
      have harith : c + 1 + rest.length = c + (rest.length + 1) := by omega
      rw [harith]

theorem foldl_tally_uniform2 (l : List NodeDef) (d : String) (n : Nat) (hd : d ≠ "") :
    ∀ c : Nat, (∀ op ∈ l, op.device = "") →
      l.foldl (fun t n2 => addToTally t n2.device) [(d, n), ("", c)] =
        [(d, n), ("", c + l.length)] := by
  induction l with
  | nil => intro c _; simp
  | cons op rest ih =>
      intro c hall
      have hop : op.device = "" := hall op (List.mem_cons_self op rest)
      have hrest : ∀ o ∈ rest, o.device = "" := fun o ho => hall o (List.mem_cons_of_mem op ho)
      simp only [List.foldl_cons, hop, addToTally, if_neg hd, if_true, List.length_cons]
      rw [ih (c + 1) hrest]
      have harith : c + 1 + rest.length = c + (rest.length + 1) := by omega
      rw [harith]

/-! ## Concrete test graphs

Embeddings of the graphs the analysis tests construct, as exposed by
the decode interface (op kind, name, device). -/

/-- Graph of op-count scenario A: `a = const(0); b = const(1); c = a + b`
with `c` captured as the sole result (the capture inserts an implicit
identity op). -/
def scenarioAGraph : GraphDef :=
  { node := [
      { op := "Const", name := "Const", device := "" },
      { op := "Const", name := "Const_1", device := "" },
      { op := "AddV2", name := "add", device := "" },
      { op := "Identity", name := "Identity", device := "" }],
    library := [] }

/-- The compiled-computation node wrapping the scenario-A graph. -/
def scenarioABlock : BuildingBlock :=
  .compiled scenarioAGraph (.func none (.tensor .int32 []))

/-- The sub-function definition of `add_one(x) = x + 1`: one constant,
one addition and one identity on the sub-function result. -/
def addOneFunction : FunctionDef :=
  { nodeDef := [
      { op := "Const", name := "add/y", device := "" },
      { op := "AddV2", name := "add", device := "" },
      { op := "Identity", name := "Identity", device := "" }] }

/-- Graph of op-count scenario B: the parameterized sub-function
`add_one` invoked twice in sequence inside an enclosing computation —
one placeholder for the argument, two invocation (partitioned-call)
ops, one identity on the enclosing result, plus the sub-function
definition in the library. -/
def scenarioBGraph : GraphDef :=
  { node := [
      { op := "Placeholder", name := "x", device := "" },
      { op := "PartitionedCall", name := "PartitionedCall", device := "" },
      { op := "PartitionedCall", name := "PartitionedCall_1", device := "" },
      { op := "Identity", name := "Identity", device := "" }],
    library := [addOneFunction] }

/-- The compiled-computation node wrapping the scenario-B graph. -/
def scenarioBBlock : BuildingBlock :=
  .compiled scenarioBGraph (.func (some (.tensor .int32 [])) (.tensor .int32 []))

/-- Graph with zero variable declarations whose constant op names
contain the substring "variable": `a = const(0, name=variable1);
b = const(1, name=variable2); c = a + b` plus the captured-result
identity. -/
def decoyNamesGraph : GraphDef :=
  { node := [
      { op := "Const", name := "variable1", device := "" },
      { op := "Const", name := "variable2", device := "" },
      { op := "AddV2", name := "add", device := "" },
      { op := "Identity", name := "Identity", device := "" }],
    library := [] }

/-- The compiled-computation node wrapping the decoy-names graph. -/
def decoyNamesBlock : BuildingBlock :=
  .compiled decoyNamesGraph (.func none (.tensor .int32 []))

/-- Graph declaring two variables (`a = Variable(0, name=variable1);
b = Variable(1, name=variable2); c = a + b`): two variable-declaration
ops, each with its initializer constant, assignment and read, then the
addition and the captured-result identity — each variable is read and
written, yet declared exactly once. -/
def twoVariablesGraph : GraphDef :=
  { node := [
      { op := "Const", name := "variable1/initial_value", device := "" },
      { op := "VariableV2", name := "variable1", device := "" },
      { op := "Assign", name := "variable1/Assign", device := "" },
      { op := "Identity", name := "variable1/read", device := "" },
      { op := "Const", name := "variable2/initial_value", device := "" },
      { op := "VariableV2", name := "variable2", device := "" },
      { op := "Assign", name := "variable2/Assign", device := "" },
      { op := "Identity", name := "variable2/read", device := "" },
      { op := "AddV2", name := "add", device := "" },
      { op := "Identity", name := "Identity", device := "" }],
    library := [] }

/-- The compiled-computation node wrapping the two-variables graph. -/
def twoVariablesBlock : BuildingBlock :=
  .compiled twoVariablesGraph (.func none (.tensor .int32 []))

/-- The sub-function definition of `add_one(x) = x + y` reading the
hoisted variable `y`: a read, an addition and an identity — the
variable declaration itself lives in the enclosing graph. -/
def addOneVarFunction : FunctionDef :=
  { nodeDef := [
      { op := "ReadVariableOp", name := "ReadVariableOp", device := "" },
      { op := "AddV2", name := "add", device := "" },
      { op := "Identity", name := "Identity", device := "" }] }

/-- Graph of the sub-function-variable scenario: the sub-function
declares one variable (hoisted once into the enclosing graph via
`init_scope`) and is invoked twice — one declaration site, two
invocation ops. -/
def functionVariableGraph : GraphDef :=
  { node := [
      { op := "Placeholder", name := "x", device := "" },
      { op := "VarHandleOp", name := "Variable", device := "" },
      { op := "AssignVariableOp", name := "AssignVariableOp", device := "" },
      { op := "PartitionedCall", name := "PartitionedCall", device := "" },
      { op := "PartitionedCall", name := "PartitionedCall_1", device := "" },
      { op := "Identity", name := "Identity", device := "" }],
    library := [addOneVarFunction] }

/-- The compiled-computation node wrapping the sub-function-variable
graph. -/
def functionVariableBlock : BuildingBlock :=
  .compiled functionVariableGraph (.func (some (.tensor .int32 [])) (.tensor .int32 []))

/-- Graph fully placed under one explicit device: three ops under
`/device:CPU:0` plus the implicit captured-result identity on the
default (empty) device. -/
def explicitDeviceGraph : GraphDef :=
  { node := [
      { op := "Const", name := "Const", device := "/device:CPU:0" },
      { op := "Const", name := "Const_1", device := "/device:CPU:0" },
      { op := "AddV2", name := "add", device := "/device:CPU:0" },
      { op := "Identity", name := "Identity", device := "" }],
    library := [] }

/-- The compiled-computation node wrapping the explicit-device graph. -/
def explicitDeviceBlock : BuildingBlock :=
  .compiled explicitDeviceGraph (.func none (.tensor .int32 []))

theorem deviceTally_all_empty (g : GraphDef)
    (hne : allOps g ≠ []) (hall : ∀ op ∈ allOps g, op.device = "") :
    deviceTally (allOps g) = [("", (allOps g).length)] := by
  unfold deviceTally
  cases hEq : allOps g with
  | nil => exact absurd hEq hne
  | cons op rest =>
      rw [hEq] at hall
      have hop : op.device = "" := hall op (List.mem_cons_self op rest)
      have hrest : ∀ o ∈ rest, o.device = "" := fun o ho => hall o (List.mem_cons_of_mem op ho)
      simp only [List.foldl_cons, addToTally, hop,
        foldl_tally_uniform rest "" 1 hrest, List.length_cons]
      rw [Nat.add_comm]

/-! ## Claims on the IR and the analysis passes -/

/-- C1: for every constructible (valid) IR building-block node `x`,
deserializing the serialization of `x` gives a node structurally equal
to `x`: `from_proto (to_proto x) = x`, where equality covers the type
signature and all children. -/
theorem c1_serialization_roundtrip (x : BuildingBlock)
    (h : BuildingBlock.wf x = true) :
    fromProto (toProto x) = Except.ok x :=
  fromProto_toProto x h

theorem c1_serialization_roundtrip_witness :
    BuildingBlock.wf sampleNode = true ∧
      fromProto (toProto sampleNode) = Except.ok sampleNode :=
  ⟨rfl, c1_serialization_roundtrip sampleNode rfl⟩

/-- C2: `get_device_placement_in` on a `CompiledComputation` node
returns a tally in which every op is attributed to exactly one key
(the keys are pairwise distinct) and the values sum to
`count_low_level_ops_in` of the same node; a graph with no explicit
device annotations yields the single key `""` with the total op count;
a graph placed entirely under one explicit device yields exactly two
keys — the device string with all its ops and `""` with the implicit
result-identity op — all counts positive and summing to the total. -/
theorem c2_device_placement_partition :
    (∀ (g : GraphDef) (ty : TypeSignature),
        ∃ tally, get_device_placement_in (some (.compiled g ty)) = .ok tally ∧
          (tally.map Prod.fst).Nodup ∧
          count_tensorflow_ops_in (some (.compiled g ty)) = .ok (sumVals tally)) ∧
    (∀ (g : GraphDef) (ty : TypeSignature),
        allOps g ≠ [] → (∀ op ∈ allOps g, op.device = "") →
          get_device_placement_in (some (.compiled g ty)) =
            .ok [("", (allOps g).length)]) ∧
    (∀ (ops1 : List NodeDef) (resOp : NodeDef) (d : String) (ty : TypeSignature),
        d ≠ "" → ops1 ≠ [] → (∀ op ∈ ops1, op.device = d) → resOp.device = "" →
          get_device_placement_in
              (some (.compiled { node := ops1 ++ [resOp], library := [] } ty)) =
            .ok [(d, ops1.length), ("", 1)]) := by
  refine ⟨fun g ty => ⟨deviceTally (allOps g), rfl, ?_, ?_⟩, fun g ty hne hall => ?_,
    fun ops1 resOp d ty hd hne hall hres => ?_⟩
  · exact foldl_tally_keys_nodup (allOps g) [] (by simp)
  · show _ = Except.ok (sumVals (deviceTally (allOps g)))
    have h1 : sumVals (deviceTally (allOps g)) = (allOps g).length := by
      simpa [deviceTally, sumVals] using foldl_tally_sum (allOps g) []
    simp [count_tensorflow_ops_in, requireCompiled, h1, length_allOps]
  · show Except.ok (deviceTally (allOps g)) = _
    rw [deviceTally_all_empty g hne hall]
  · show Except.ok (deviceTally (allOps
      ({ node := ops1 ++ [resOp], library := [] } : GraphDef))) = _
    have hops : allOps ({ node := ops1 ++ [resOp], library := [] } : GraphDef) =
        ops1 ++ [resOp] := by simp [allOps]
    rw [hops]
    cases ops1 with
    | nil => exact absurd rfl hne
    | cons o rest =>
        have ho : o.device = d := hall o (List.mem_cons_self o rest)
        have hrest : ∀ op ∈ rest, op.device = d := fun op hop =>
          hall op (List.mem_cons_of_mem o hop)
        unfold deviceTally
        rw [List.foldl_append]
        simp only [List.foldl_cons, addToTally, ho,
          foldl_tally_uniform rest d 1 hrest, List.foldl_cons, List.foldl_nil, hres,
          addToTally, if_neg hd, List.length_cons]
        rw [Nat.add_comm]

theorem c2_device_placement_partition_witness :
    (allOps twoVariablesGraph ≠ [] ∧
      (∀ op ∈ allOps twoVariablesGraph, op.device = "") ∧
      get_device_placement_in (some twoVariablesBlock) = .ok [("", 10)]) ∧
    (("/device:CPU:0" : String) ≠ "" ∧
      get_device_placement_in (some explicitDeviceBlock) =
        .ok [("/device:CPU:0", 3), ("", 1)]) := by
  constructor
  · refine ⟨by decide, by decide, ?_⟩
    exact c2_device_placement_partition.2.1 twoVariablesGraph
      (.func none (.tensor .int32 [])) (by decide) (by decide)
  · refine ⟨by decide, ?_⟩
    exact c2_device_placement_partition.2.2
      [⟨"Const", "Const", "/device:CPU:0"⟩, ⟨"Const", "Const_1", "/device:CPU:0"⟩,
        ⟨"AddV2", "add", "/device:CPU:0"⟩]
      ⟨"Identity", "Identity", ""⟩ "/device:CPU:0" (.func none (.tensor .int32 []))
      (by decide) (by decide) (by decide) rfl

/-- C3: for the compiled node whose embedded graph computes
`a = const(0); b = const(1); c = a + b` with `c` captured as the sole
result, `count_low_level_ops_in` returns exactly 4: two constants, one
addition and one implicit identity op on the captured result. -/
theorem c3_op_count_simple_case :
    count_tensorflow_ops_in (some scenarioABlock) = .ok 4 := rfl

/-- C4: for the compiled node whose embedded graph wraps the
parameterized sub-function `add_one(x) = x + 1` invoked twice in
sequence inside an enclosing computation, `count_low_level_ops_in`
returns exactly 7: 1 constant + 1 addition + 1 identity inside the
sub-function definition, plus 1 placeholder + 2 invocation ops + 1
result identity in the enclosing computation. -/
theorem c4_op_count_with_function :
    count_tensorflow_ops_in (some scenarioBBlock) = .ok 7 := rfl

/-- C5: `count_low_level_variables_in` counts distinct
stateful-variable declaration sites only: a graph with zero variable
declarations yields 0 even when constant op names contain the
substring "variable"; a graph declaring two variables yields 2
regardless of how often each is read or written; and a sub-function
declaring one variable that is invoked twice yields 1. -/
theorem c5_variable_count :
    count_tensorflow_variables_in (some decoyNamesBlock) = .ok 0 ∧
    count_tensorflow_variables_in (some twoVariablesBlock) = .ok 2 ∧
    count_tensorflow_variables_in (some functionVariableBlock) = .ok 1 :=
  ⟨rfl, rfl, rfl⟩

/-- C6: each of the three analysis passes requires its input to be
exactly one `CompiledComputation` node: on any other node kind it
raises a `ValueError` whose message names "tensorflow", and on an
absent (`None`) input it raises a `TypeError`; no other outcome occurs
in these cases. -/
theorem c6_analysis_pass_preconditions :
    (count_tensorflow_ops_in none = .error (.typeError nullInputMsg) ∧
     count_tensorflow_variables_in none = .error (.typeError nullInputMsg) ∧
     get_device_placement_in none = .error (.typeError nullInputMsg)) ∧
    (∀ bb : BuildingBlock, bb.isCompiledNode = false →
        count_tensorflow_ops_in (some bb) = .error (.valueError unsupportedKindMsg) ∧
        count_tensorflow_variables_in (some bb) =
          .error (.valueError unsupportedKindMsg) ∧
        get_device_placement_in (some bb) = .error (.valueError unsupportedKindMsg)) ∧
    unsupportedKindMsg =
      "Expected a " ++ "tensorflow" ++ " compiled computation building block." := by
  refine ⟨⟨rfl, rfl, rfl⟩, fun bb h => ?_, rfl⟩
  cases bb with
  | compiled payload ty => exact absurd h (by simp [BuildingBlock.isCompiledNode])
  | ref name ty => exact ⟨rfl, rfl, rfl⟩
  | sel source key => exact ⟨rfl, rfl, rfl⟩
  | struct elems => exact ⟨rfl, rfl, rfl⟩
  | call fn arg => exact ⟨rfl, rfl, rfl⟩
  | lam paramName paramType body => exact ⟨rfl, rfl, rfl⟩
  | block locals result => exact ⟨rfl, rfl, rfl⟩
  | placementLit lit => exact ⟨rfl, rfl, rfl⟩
  | data uri ty => exact ⟨rfl, rfl, rfl⟩
  | literal value ty => exact ⟨rfl, rfl, rfl⟩

theorem c6_analysis_pass_preconditions_witness :
    count_tensorflow_ops_in (some (.ref "x" (.tensor .int32 []))) =
      .error (.valueError unsupportedKindMsg) :=
  (c6_analysis_pass_preconditions.2.1 (.ref "x" (.tensor .int32 [])) rfl).1

/-! ## Deterministic discretization
(`tensorflow_federated/python/aggregators/deterministic_discretization.py`)

Tensor values are modelled over `ℚ` with idealized real-valued
semantics for the floating dtypes (casts between floating dtypes are
exact); `tf.round` rounds half to even. -/

/-- Model of `tf.round`: round to the nearest integer, rounding half to even. -/
def roundEven (q : ℚ) : ℤ :=
  if q - ⌊q⌋ < 1 / 2 then ⌊q⌋
  else if 1 / 2 < q - ⌊q⌋ then ⌊q⌋ + 1
  else if Even ⌊q⌋ then ⌊q⌋ else ⌊q⌋ + 1

theorem abs_roundEven_sub (q : ℚ) : |(roundEven q : ℚ) - q| ≤ 1 / 2 := by
  have h0 : (⌊q⌋ : ℚ) ≤ q := Int.floor_le q
  have h1 : q < (⌊q⌋ : ℚ) + 1 := Int.lt_floor_add_one q
  unfold roundEven
  split
  · next hlt =>
      rw [abs_le]
      constructor <;> linarith
  · next hge =>
      split
      · next hgt =>
          rw [abs_le]
          constructor <;> push_cast <;> linarith
      · next hle =>
          have heq : q - (⌊q⌋ : ℚ) = 1 / 2 := le_antisymm (not_lt.mp hle) (not_lt.mp hge)
          split <;> (rw [abs_le]; constructor <;> push_cast <;> linarith)

/-- Cast of a real value to a floating dtype, in the idealized
real-valued semantics (exact). -/
def castToFloatDType (q : ℚ) (_d : DType) : ℚ := q

/-- The inner transform of `_discretize_struct`: scale by the step
size (after the exact cast to float32) and round to the int32 grid. -/
def discretize_tensor (step_size : ℚ) (x : ℚ) : ℤ :=
  roundEven (castToFloatDType x .float32 / step_size)

/-- The inner transform of `_undiscretize_struct`: cast to float32,
unscale, and cast back to the original dtype of the element. -/
def undiscretize_tensor (step_size : ℚ) (x : ℤ) (original_dtype : DType) : ℚ :=
  castToFloatDType (castToFloatDType (x : ℚ) .float32 * step_size) original_dtype

/-- A `tf.nest` structure of scalar tensor values. -/
inductive TfNest (α : Type) : Type
  | leaf : α → TfNest α
  | struct : List (TfNest α) → TfNest α

mutual

/-- Model of `tf.nest.map_structure` over one structure. -/
def TfNest.map (f : α → β) : TfNest α → TfNest β
  | .leaf a => .leaf (f a)
  | .struct elems => .struct (TfNest.mapList f elems)

/-- Model of `tf.nest.map_structure` over the children lists. -/
def TfNest.mapList (f : α → β) : List (TfNest α) → List (TfNest β)
  | [] => []
  | s :: rest => TfNest.map f s :: TfNest.mapList f rest

end

mutual

/-- Model of `tf.nest.map_structure` over two structures of the same shape
(the mismatched case cannot arise for nests produced by `create`). -/
def TfNest.zipWith (f : α → β → γ) : TfNest α → TfNest β → TfNest γ
  | .leaf a, .leaf b => .leaf (f a b)
  | .struct as2, .struct bs => .struct (TfNest.zipWithList f as2 bs)
  | _, _ => .struct []

/-- The `zipWith` operation over the children lists. -/
def TfNest.zipWithList (f : α → β → γ) : List (TfNest α) → List (TfNest β) → List (TfNest γ)
  | [], _ => []
  | _, [] => []
  | a :: as2, b :: bs => TfNest.zipWith f a b :: TfNest.zipWithList f as2 bs

end

/-- The shape of a nest, forgetting the leaf values. -/
def TfNest.shape (s : TfNest α) : TfNest Unit := TfNest.map (fun _ => ()) s

mutual

/-- The leaf values of a nest, in order (`tf.nest.flatten`). -/
def TfNest.leaves : TfNest α → List α
  | .leaf a => [a]
  | .struct elems => TfNest.leavesList elems

/-- Leaves of the children of a nest, in order. -/
def TfNest.leavesList : List (TfNest α) → List α
  | [] => []
  | s :: rest => TfNest.leaves s ++ TfNest.leavesList rest

end

/-- Embedding of `_discretize_struct`: scales and rounds each tensor of the
structure to the integer grid (`x -> cast(round(x / step_size), int32)`),
via `tf.nest.map_structure`. -/
def discretize_struct (struct : TfNest ℚ) (step_size : ℚ) : TfNest ℤ :=
  TfNest.map (discretize_tensor step_size) struct

/-- Embedding of `_undiscretize_struct`: unscales the discretized structure and
casts back to the original dtypes, via `tf.nest.map_structure` over
the value structure and the parallel dtype structure. -/
def undiscretize_struct (struct : TfNest ℤ) (step_size : ℚ)
    (tf_dtype_struct : TfNest DType) : TfNest ℚ :=
  TfNest.zipWith (undiscretize_tensor step_size) struct tf_dtype_struct

mutual

theorem TfNest.map_map (f : α → β) (g : β → γ) :
    ∀ s : TfNest α, TfNest.map g (TfNest.map f s) = TfNest.map (fun a => g (f a)) s
  | .leaf a => rfl
  | .struct elems => by
      simp only [TfNest.map, TfNest.mapList_mapList f g elems]

theorem TfNest.mapList_mapList (f : α → β) (g : β → γ) :
    ∀ l : List (TfNest α),
      TfNest.mapList g (TfNest.mapList f l) = TfNest.mapList (fun a => g (f a)) l
  | [] => rfl
  | s :: rest => by
      simp only [TfNest.mapList, TfNest.map_map f g s, TfNest.mapList_mapList f g rest]

end

mutual

theorem TfNest.leaves_map (f : α → β) :
    ∀ s : TfNest α, (TfNest.map f s).leaves = s.leaves.map f
  | .leaf a => rfl
  | .struct elems => by
      simp only [TfNest.map, TfNest.leaves, TfNest.leavesList_mapList f elems]

theorem TfNest.leavesList_mapList (f : α → β) :
    ∀ l : List (TfNest α),
      TfNest.leavesList (TfNest.mapList f l) = (TfNest.leavesList l).map f
  | [] => rfl
  | s :: rest => by
      simp only [TfNest.mapList, TfNest.leavesList, TfNest.leaves_map f s,
        TfNest.leavesList_mapList f rest, List.map_append]

end

theorem TfNest.shape_map (f : α → β) (s : TfNest α) :
    (TfNest.map f s).shape = s.shape := by
  unfold TfNest.shape
  rw [TfNest.map_map]

theorem TfNest.leaves_length_of_shape_eq {a : TfNest α} {b : TfNest β}
    (h : a.shape = b.shape) : a.leaves.length = b.leaves.length := by
  have ha := TfNest.leaves_map (fun _ => ()) a
  have hb := TfNest.leaves_map (fun _ => ()) b
  have h2 : a.leaves.map (fun _ => ()) = b.leaves.map (fun _ => ()) := by
    rw [← ha, ← hb]
    exact congrArg TfNest.leaves h
  have := congrArg List.length h2
  simpa using this

mutual

theorem TfNest.shape_zipWith (f : α → β → γ) :
    ∀ (a : TfNest α) (b : TfNest β), a.shape = b.shape →
      (TfNest.zipWith f a b).shape = a.shape
  | .leaf x, .leaf y, _ => rfl
  | .leaf x, .struct bs, h => by
      simp [TfNest.shape, TfNest.map] at h
  | .struct as2, .leaf y, h => by
      simp [TfNest.shape, TfNest.map] at h
  | .struct as2, .struct bs, h => by
      simp only [TfNest.shape, TfNest.map, TfNest.struct.injEq] at h
      simp only [TfNest.zipWith, TfNest.shape, TfNest.map, TfNest.struct.injEq]
      exact TfNest.shapeList_zipWithList f as2 bs h

theorem TfNest.shapeList_zipWithList (f : α → β → γ) :
    ∀ (as2 : List (TfNest α)) (bs : List (TfNest β)),
      TfNest.mapList (fun _ => ()) as2 = TfNest.mapList (fun _ => ()) bs →
        TfNest.mapList (fun _ => ()) (TfNest.zipWithList f as2 bs) =
          TfNest.mapList (fun _ => ()) as2
  | [], _, _ => by simp [TfNest.zipWithList, TfNest.mapList]
  | a :: as2, [], h => by simp [TfNest.mapList] at h
  | a :: as2, b :: bs, h => by
      simp only [TfNest.mapList, List.cons.injEq] at h
      simp only [TfNest.zipWithList, TfNest.mapList, List.cons.injEq]
      exact ⟨TfNest.shape_zipWith f a b h.1, TfNest.shapeList_zipWithList f as2 bs h.2⟩

end

mutual

theorem TfNest.leaves_zipWith (f : α → β → γ) :
    ∀ (a : TfNest α) (b : TfNest β), a.shape = b.shape →
      (TfNest.zipWith f a b).leaves = List.zipWith f a.leaves b.leaves
  | .leaf x, .leaf y, _ => rfl
  | .leaf x, .struct bs, h => by
      simp [TfNest.shape, TfNest.map] at h
  | .struct as2, .leaf y, h => by
      simp [TfNest.shape, TfNest.map] at h
  | .struct as2, .struct bs, h => by
      simp only [TfNest.shape, TfNest.map, TfNest.struct.injEq] at h
      simp only [TfNest.zipWith, TfNest.leaves]
      exact TfNest.leavesList_zipWithList f as2 bs h

theorem TfNest.leavesList_zipWithList (f : α → β → γ) :
    ∀ (as2 : List (TfNest α)) (bs : List (TfNest β)),
      TfNest.mapList (fun _ => ()) as2 = TfNest.mapList (fun _ => ()) bs →
        TfNest.leavesList (TfNest.zipWithList f as2 bs) =
          List.zipWith f (TfNest.leavesList as2) (TfNest.leavesList bs)
  | [], [], _ => rfl
  | [], b :: bs, h => by simp [TfNest.mapList] at h
  | a :: as2, [], h => by simp [TfNest.mapList] at h
  | a :: as2, b :: bs, h => by
      simp only [TfNest.mapList, List.cons.injEq] at h
      have hsh : TfNest.shape a = TfNest.shape b := h.1
      have hlen : a.leaves.length = b.leaves.length :=
        TfNest.leaves_length_of_shape_eq hsh
      simp only [TfNest.zipWithList, TfNest.leavesList,
        TfNest.leaves_zipWith f a b hsh,
        TfNest.leavesList_zipWithList f as2 bs h.2,
        List.zipWith_append _ _ _ _ _ hlen]

end

/-! ## Factory type validation (`DeterministicDiscretizationFactory.create`) -/

mutual

/-- Embedding of `type_analysis.is_structure_of_tensors`: every leaf of the type is
a tensor type, through nested structures. -/
def is_structure_of_tensors : TypeSignature → Bool
  | .tensor _ _ => true
  | .struct elems => allTensors elems
  | _ => false

/-- The `is_structure_of_tensors` check over struct elements. -/
def allTensors : List (Option String × TypeSignature) → Bool
  | [] => true
  | e :: rest => is_structure_of_tensors e.2 && allTensors rest

end

mutual

/-- Embedding of `type_analysis.is_structure_of_floats` on the tensor/struct types
reachable after the shape check: every leaf dtype is a floating
type. -/
def is_structure_of_floats : TypeSignature → Bool
  | .tensor dtype _ => dtype.isFloat
  | .struct elems => allFloats elems
  | _ => false

/-- The `is_structure_of_floats` check over struct elements. -/
def allFloats : List (Option String × TypeSignature) → Bool
  | [] => true
  | e :: rest => is_structure_of_floats e.2 && allFloats rest

end

/-- The `TypeError` raised by the validation in `create`. -/
inductive FactoryTypeError : Type
  | typeError (msg : String)
deriving DecidableEq, Repr

/-- Message of the value-type shape error. -/
def shapeErrMsg : String :=
  "Expected value_type to be TensorType or StructWithPythonType containing only TensorType."

/-- Message of the non-float component-dtype error. -/
def floatsErrMsg : String :=
  "Component dtypes of value_type must all be floats."

/-- The first validation step of `create` (lines 98-112): a tensor
type passes, a structure type passes only when it is a structure of
tensors, anything else raises a `TypeError`. -/
def create_shape_check (value_type : TypeSignature) : Except FactoryTypeError Unit :=
  match value_type with
  | .tensor _ _ => .ok ()
  | .struct elems =>
      if allTensors elems then .ok ()
      else .error (.typeError shapeErrMsg)
  | _ => .error (.typeError shapeErrMsg)

/-- The validation prefix of `create` (lines 98-119), which runs
before any computation is constructed: the shape check followed by
the all-floats check. -/
def create_type_validation (value_type : TypeSignature) : Except FactoryTypeError Unit :=
  match create_shape_check value_type with
  | .error e => .error e
  | .ok _ =>
      if is_structure_of_floats value_type then .ok ()
      else .error (.typeError floatsErrMsg)

/-- The acceptance condition in the words of the spec: a single tensor
type or a structure-of-tensors type, with every leaf dtype floating. -/
def specAcceptsValueType (t : TypeSignature) : Bool :=
  (match t with
   | .tensor _ _ => true
   | .struct elems => allTensors elems
   | _ => false) && is_structure_of_floats t

/-! ## The aggregation process (`init_fn` / `next_fn`) -/

/-- Output of one `next` invocation of a measured process. -/
structure MeasuredProcessOutput (S R M : Type) : Type where
  state : S
  result : R
  measurements : M

/-- The server state of the discretization aggregation process: the
scalar `step_size` configuration zipped with the inner process
state. -/
structure DiscretizationState (IS : Type) : Type where
  step_size : ℚ
  inner_agg_process : IS

/-- Embedding of `init_fn` (lines 157-165): the initial state pairs the configured
step size with the initial state of the inner process. -/
def init_fn {IS : Type} (step_size : ℚ) (innerInitialize : IS) :
    DiscretizationState IS :=
  { step_size := step_size, inner_agg_process := innerInitialize }

/-- Embedding of `next_fn` (lines 167-205): broadcast the step size, discretize the
client values, run the inner aggregation, undiscretize its result, and
return the new state (the unchanged step size zipped with the inner
process new state), the undiscretized aggregate result and the
measurements (the inner measurements, plus the optional distortion
measurement). -/
def next_fn {IS M : Type}
    (innerNext : IS → List (TfNest ℤ) → MeasuredProcessOutput IS (TfNest ℤ) M)
    (tf_dtype : TfNest DType)
    (distortionMeasure : Option (List (TfNest ℚ) → ℚ → ℚ))
    (state : DiscretizationState IS) (value : List (TfNest ℚ)) :
    MeasuredProcessOutput (DiscretizationState IS) (TfNest ℚ) (M × Option ℚ) :=
  let server_step_size := state.step_size
  let client_step_size := server_step_size
  let discretized_value := value.map (fun v => discretize_struct v client_step_size)
  let inner_state := state.inner_agg_process
  let inner_agg_output := innerNext inner_state discretized_value
  let undiscretized_agg_value :=
    undiscretize_struct inner_agg_output.result server_step_size tf_dtype
  let new_state : DiscretizationState IS :=
    { step_size := server_step_size, inner_agg_process := inner_agg_output.state }
  let measurements :=
    (inner_agg_output.measurements,
      distortionMeasure.map (fun f => f value client_step_size))
  { state := new_state, result := undiscretized_agg_value,
    measurements := measurements }

/-! ## Claims on the discretization factory -/

/-- C7: `create` accepts a `value_type` only when it is a single
tensor type or a structure-of-tensors type whose every leaf dtype is
floating point; for any other `value_type` it raises a `TypeError`,
before any computation is constructed (the validation is the prefix of
`create`). -/
theorem c7_create_type_validation (value_type : TypeSignature) :
    (create_type_validation value_type = .ok () ↔
      specAcceptsValueType value_type = true) ∧
    (specAcceptsValueType value_type = false →
      ∃ msg, create_type_validation value_type = .error (.typeError msg)) := by
  cases value_type with
  | tensor d s =>
      cases hd : DType.isFloat d with
      | true =>
          refine ⟨?_, ?_⟩
          · simp [create_type_validation, create_shape_check, specAcceptsValueType,
              is_structure_of_floats, hd]
          · intro hspec
            simp [specAcceptsValueType, is_structure_of_floats, hd] at hspec
      | false =>
          refine ⟨?_, fun _ => ⟨floatsErrMsg, ?_⟩⟩
          · simp [create_type_validation, create_shape_check, specAcceptsValueType,
              is_structure_of_floats, hd]
          · simp [create_type_validation, create_shape_check,
              is_structure_of_floats, hd]
  | struct elems =>
      cases ht : allTensors elems with
      | true =>
          cases hf : allFloats elems with
          | true =>
              refine ⟨?_, ?_⟩
              · simp [create_type_validation, create_shape_check,
                  specAcceptsValueType, is_structure_of_floats, ht, hf]
              · intro hspec
                simp [specAcceptsValueType, is_structure_of_floats, ht, hf] at hspec
          | false =>
              refine ⟨?_, fun _ => ⟨floatsErrMsg, ?_⟩⟩
              · simp [create_type_validation, create_shape_check,
                  specAcceptsValueType, is_structure_of_floats, ht, hf]
              · simp [create_type_validation, create_shape_check,
                  is_structure_of_floats, ht, hf]
      | false =>
          refine ⟨?_, fun _ => ⟨shapeErrMsg, ?_⟩⟩
          · simp [create_type_validation, create_shape_check,
              specAcceptsValueType, ht]
          · simp [create_type_validation, create_shape_check, ht]
  | func p r =>
      exact ⟨by simp [create_type_validation, create_shape_check, specAcceptsValueType],
        fun _ => ⟨shapeErrMsg, rfl⟩⟩
  | federated m p a =>
      exact ⟨by simp [create_type_validation, create_shape_check, specAcceptsValueType],
        fun _ => ⟨shapeErrMsg, rfl⟩⟩
  | sequence e =>
      exact ⟨by simp [create_type_validation, create_shape_check, specAcceptsValueType],
        fun _ => ⟨shapeErrMsg, rfl⟩⟩
  | placement =>
      exact ⟨by simp [create_type_validation, create_shape_check, specAcceptsValueType],
        fun _ => ⟨shapeErrMsg, rfl⟩⟩

theorem c7_create_type_validation_witness :
    (create_type_validation (.tensor .float32 []) = .ok () ∧
      specAcceptsValueType (.tensor .float32 []) = true) ∧
    (specAcceptsValueType (.tensor .int32 []) = false ∧
      ∃ msg, create_type_validation (.tensor .int32 []) = .error (.typeError msg)) :=
  ⟨⟨((c7_create_type_validation (.tensor .float32 [])).1).mpr rfl, rfl⟩,
    ⟨rfl, (c7_create_type_validation (.tensor .int32 [])).2 rfl⟩⟩

/-- C8: the discretization forward transform maps every element `x`
of the floating-point input structure to `round(x / step_size)` cast
to a 32-bit integer, and the inverse transform maps every discretized
element `y` to `cast(y, float32) * step_size` cast back to the
original dtype of the element, preserving the structure of the input. -/
theorem c8_transforms_pointwise :
    (∀ (s : TfNest ℚ) (step : ℚ),
        (discretize_struct s step).shape = s.shape ∧
        (discretize_struct s step).leaves =
          s.leaves.map (fun x => roundEven (x / step))) ∧
    (∀ (s : TfNest ℤ) (step : ℚ) (dt : TfNest DType), s.shape = dt.shape →
        (undiscretize_struct s step dt).shape = s.shape ∧
        (undiscretize_struct s step dt).leaves =
          List.zipWith
            (fun (y : ℤ) (d : DType) =>
              castToFloatDType (castToFloatDType (y : ℚ) .float32 * step) d)
            s.leaves dt.leaves) := by
  constructor
  · intro s step
    refine ⟨TfNest.shape_map _ s, ?_⟩
    rw [discretize_struct, TfNest.leaves_map]
    rfl
  · intro s step dt h
    refine ⟨TfNest.shape_zipWith _ s dt h, ?_⟩
    rw [undiscretize_struct, TfNest.leaves_zipWith _ s dt h]
    rfl

theorem c8_transforms_pointwise_witness :
    (TfNest.shape (.struct [.leaf (3 : ℤ), .leaf (-2 : ℤ)]) =
        TfNest.shape (.struct [.leaf DType.float32, .leaf DType.float64])) ∧
      (undiscretize_struct (.struct [.leaf 3, .leaf (-2)]) (1 / 2)
            (.struct [.leaf .float32, .leaf .float64])).leaves =
        List.zipWith
          (fun (y : ℤ) (d : DType) =>
            castToFloatDType (castToFloatDType (y : ℚ) .float32 * (1 / 2)) d)
          (TfNest.leaves (.struct [.leaf 3, .leaf (-2)]))
          (TfNest.leaves (.struct [.leaf DType.float32, .leaf DType.float64])) :=
  ⟨rfl,
    (c8_transforms_pointwise.2 (.struct [.leaf 3, .leaf (-2)]) (1 / 2)
        (.struct [.leaf .float32, .leaf .float64]) rfl).2⟩

/-- C9 as stated is false: it quantifies over every step size, but at
the negative step size `-1` and input `1` the reconstruction error is
`0` while the claimed bound `s / 2 = -1/2` is negative. -/
theorem c9_roundtrip_counterexample :
    ¬ (∀ (s x : ℚ) (d : DType),
        |undiscretize_tensor s (discretize_tensor s x) d - x| ≤ s / 2) := by
  intro h
  have h2 := h (-1) 1 .float32
  have hfloor : ⌊(-1 : ℚ)⌋ = -1 := by norm_num
  have hd : discretize_tensor (-1) 1 = -1 := by
    unfold discretize_tensor castToFloatDType roundEven
    norm_num [hfloor]
  have hu : undiscretize_tensor (-1) (-1) .float32 = 1 := by
    unfold undiscretize_tensor castToFloatDType
    norm_num
  rw [hd, hu] at h2
  norm_num at h2

/-- C9 (amended): for every step_size `s > 0` and every real input
`x`, applying the discretization forward transform and then the
inverse transform reproduces `x` to within `s / 2` in absolute value. -/
theorem c9_roundtrip_amended (step x : ℚ) (d : DType) (hs : 0 < step) :
    |undiscretize_tensor step (discretize_tensor step x) d - x| ≤ step / 2 := by
  have h := abs_roundEven_sub (x / step)
  have hs0 : step ≠ 0 := ne_of_gt hs
  unfold undiscretize_tensor discretize_tensor castToFloatDType
  have key : (roundEven (x / step) : ℚ) * step - x =
      ((roundEven (x / step) : ℚ) - x / step) * step := by
    field_simp
  rw [key, abs_mul, abs_of_pos hs]
  calc |(roundEven (x / step) : ℚ) - x / step| * step
      ≤ (1 / 2) * step := mul_le_mul_of_nonneg_right h (le_of_lt hs)
    _ = step / 2 := by ring

theorem c9_roundtrip_amended_witness :
    (0 : ℚ) < 1 ∧
      |undiscretize_tensor 1 (discretize_tensor 1 (3 / 2)) .float32 - 3 / 2| ≤
        (1 : ℚ) / 2 :=
  ⟨by norm_num, c9_roundtrip_amended 1 (3 / 2) .float32 (by norm_num)⟩

/-- C10: for every invocation of the `next` computation of the aggregation process
computation, the `step_size` component of the returned new state
equals the `step_size` component of the input state unchanged: `next`
only replaces the `inner_agg_process` component of the state. -/
theorem c10_next_preserves_step_size {IS M : Type}
    (innerNext : IS → List (TfNest ℤ) → MeasuredProcessOutput IS (TfNest ℤ) M)
    (tf_dtype : TfNest DType)
    (distortionMeasure : Option (List (TfNest ℚ) → ℚ → ℚ))
    (state : DiscretizationState IS) (value : List (TfNest ℚ)) :
    (next_fn innerNext tf_dtype distortionMeasure state value).state.step_size =
      state.step_size := rfl

end Federated
